import Mathlib

/-!
Shallow embedding of the krustlet wasmCloud provider
(`crates/wasmcloud-provider/src/lib.rs` and `crates/wasmcloud-logging/src/lib.rs`).

The wasmCloud `Host` is an external collaborator: its fallible calls
(`start_native_capability`, `start_actor`, `set_link`, `remove_link`,
`stop_provider`, `stop_actor`) are modelled as trace events (`HostOp`)
together with an oracle `hostOk : HostOp → Bool` deciding which calls the
Host answers successfully.  Every embedded operation returns, next to its
Rust result, the list of Host calls it issued, in order.

Module parsing (`Actor::from_slice`, from the external `wascap` crate) is
modelled as an `Option LoadedActor` input: `none` stands for bytes that do
not parse as a valid signed module.
-/

/-- `FS_CAPABILITY` from lib.rs: the name of the Filesystem capability. -/
def FS_CAPABILITY : String := "wasmcloud:blobstore"

/-- `HTTP_CAPABILITY` from lib.rs: the name of the HTTP capability. -/
def HTTP_CAPABILITY : String := "wasmcloud:httpserver"

/-- `LOG_CAPABILITY` from lib.rs: the name of the Logging capability. -/
def LOG_CAPABILITY : String := "wasmcloud:logging"

/-- `FS_CONFIG_ROOTDIR` from lib.rs: the key for the root directory of the
Filesystem capability. -/
def FS_CONFIG_ROOTDIR : String := "ROOT"

/-- `LOG_PATH_KEY` from wasmcloud-logging/src/lib.rs. -/
def LOG_PATH_KEY : String := "LOG_PATH"

/-- `FS_CAPABILITY_PUBKEY` from lib.rs (the `sub` claim of the embedded JWT). -/
def FS_CAPABILITY_PUBKEY : String :=
  "VA3XZJXPRTT7J7XXJE24LMPK7HQR73W2TOZSJ64ZZMO4YWMIO2SB3IB2"

/-- `HTTP_CAPABILITY_PUBKEY` from lib.rs. -/
def HTTP_CAPABILITY_PUBKEY : String :=
  "VBH3MFCEDPQPSIYKUC7IUW7RU2G6XXEJF34RO26WVRTGGE4UQ5XTA3VQ"

/-- `LOG_CAPABILITY_PUBKEY` from lib.rs. -/
def LOG_CAPABILITY_PUBKEY : String :=
  "VDIYW63237VJQSHISKPBO2CQ674OPI5ZCVWQ2PXTA4HIYO5LXHLL3DXQ"

/-- Kubernetes' view of environment variables (`EnvVars` in lib.rs is a
`HashMap<String, String>`); modelled as an association list whose keys are
kept unique by `envInsert`. -/
abbrev EnvVars : Type := List (String × String)

/-- `HashMap::insert`: the new entry replaces any entry with the same key. -/
def envInsert (env : EnvVars) (k v : String) : EnvVars :=
  (k, v) :: (env.filter fun p => p.1 ≠ k)

/-- `VolumeBinding` from lib.rs. -/
structure VolumeBinding where
  name : String
  host_path : String
  deriving DecidableEq, Repr

/-- `Capability` from lib.rs: describes a wasmCloud capability configured
for an actor. -/
structure Capability where
  name : String
  binding : Option String
  capability_provider_id : String
  env : EnvVars
  deriving DecidableEq, Repr

/-- The result of `Actor::from_slice` on bytes that parse: the actor's
public key (`Actor::public_key`) and declared capabilities
(`Actor::capabilities`). -/
structure LoadedActor where
  public_key : String
  capabilities : List String
  deriving DecidableEq, Repr

/-- One fallible call into the shared wasmCloud `Host`. -/
inductive HostOp where
  /-- `Host::start_native_capability` with the given capability name,
  binding, and provider public key (from the capability's claims). -/
  | start_native_capability (capName : String) (binding : Option String)
      (providerKey : String)
  /-- `Host::start_actor` keyed by the actor's public key. -/
  | start_actor (key : String)
  /-- `Host::set_link (actor, contract_id, binding, provider_key, values)`. -/
  | set_link (actor : String) (capName : String) (binding : Option String)
      (providerKey : String) (env : EnvVars)
  /-- `Host::remove_link (actor, contract_id, binding)`. -/
  | remove_link (actor : String) (capName : String) (binding : Option String)
  /-- `Host::stop_provider (provider_ref, contract_id, binding)`. -/
  | stop_provider (providerKey : String) (capName : String)
      (binding : Option String)
  /-- `Host::stop_actor` keyed by the actor's public key. -/
  | stop_actor (key : String)
  deriving DecidableEq, Repr

/-- `ActorHandle` from lib.rs (the shared `Arc<Mutex<Host>>` field is the
ambient oracle; `volumes` and `capabilities` are the owned teardown data). -/
structure ActorHandle where
  key : String
  volumes : List VolumeBinding
  capabilities : List String
  deriving DecidableEq, Repr

/-- The Host calls `ActorHandle::stop` issues for one blob-store volume:
`stop_provider` then `remove_link`, each propagating a Host error via `?`.
Returns the calls issued (in order) and the error, if any. -/
def stopFsVolume (hostOk : HostOp → Bool) (key : String) (v : VolumeBinding) :
    List HostOp × Option String :=
  let op1 := HostOp.stop_provider FS_CAPABILITY_PUBKEY FS_CAPABILITY (some v.name)
  if hostOk op1 then
    let op2 := HostOp.remove_link key FS_CAPABILITY (some v.name)
    if hostOk op2 then ([op1, op2], none)
    else ([op1, op2], some ("unable to unlink volume " ++ v.name ++ " capability"))
  else ([op1], some ("unable to remove volume " ++ v.name ++ " capability"))

/-- The `for volume in volumes.iter()` loop inside the `FS_CAPABILITY` arm
of `ActorHandle::stop`: the `?` on each call aborts the loop at the first
failing volume. -/
def stopFsVolumes (hostOk : HostOp → Bool) (key : String) :
    List VolumeBinding → List HostOp × Option String
  | [] => ([], none)
  | v :: rest =>
    match stopFsVolume hostOk key v with
    | (ops, some e) => (ops, some e)
    | (ops, none) =>
      let (ops2, err2) := stopFsVolumes hostOk key rest
      (ops ++ ops2, err2)

/-- One iteration of the `for cap in self.capabilities.iter()` loop of
`ActorHandle::stop`: the `match cap.as_str()` over the three managed
capability names; any other name is skipped (`_ => info!(...)`). -/
def stopCap (hostOk : HostOp → Bool) (key : String)
    (volumes : List VolumeBinding) (cap : String) :
    List HostOp × Option String :=
  if cap = FS_CAPABILITY then stopFsVolumes hostOk key volumes
  else if cap = HTTP_CAPABILITY then
    let op := HostOp.remove_link key HTTP_CAPABILITY none
    ([op], if hostOk op then none else some "unable to unlink http capability")
  else if cap = LOG_CAPABILITY then
    let op := HostOp.remove_link key LOG_CAPABILITY none
    ([op], if hostOk op then none else some "unable to unlink log capability")
  else ([], none)

/-- The whole capability loop of `ActorHandle::stop`: the `?` operator
propagates the first error, abandoning the remaining capabilities. -/
def stopCaps (hostOk : HostOp → Bool) (key : String)
    (volumes : List VolumeBinding) :
    List String → List HostOp × Option String
  | [] => ([], none)
  | cap :: rest =>
    match stopCap hostOk key volumes cap with
    | (ops, some e) => (ops, some e)
    | (ops, none) =>
      let (ops2, err2) := stopCaps hostOk key volumes rest
      (ops ++ ops2, err2)

/-- `ActorHandle::stop` (`impl StopHandler for ActorHandle`): drains the
volume list, runs the capability loop, then `stop_actor`; every Host error
is propagated immediately via `?`.  Returns the Rust result and the trace
of Host calls issued. -/
def ActorHandle.stop (hostOk : HostOp → Bool) (h : ActorHandle) :
    Except String Unit × List HostOp :=
  match stopCaps hostOk h.key h.volumes h.capabilities with
  | (ops, some e) => (Except.error e, ops)
  | (ops, none) =>
    let op := HostOp.stop_actor h.key
    if hostOk op then (Except.ok (), ops ++ [op])
    else (Except.error "unable to remove actor", ops ++ [op])

/-- The `capabilities` entries `wasmcloud_run` pushes before taking the
host lock: logging (with `LOG_PATH` pointing at the temp log file) if the
actor declares it, then HTTP (with `PORT` set to the assigned port) if
declared. -/
def logHttpCaps (actor_caps : List String) (env : EnvVars)
    (logOutputPath : String) (port_assigned : Nat) : List Capability :=
  (if LOG_CAPABILITY ∈ actor_caps then
    [⟨LOG_CAPABILITY, none, LOG_CAPABILITY_PUBKEY,
      envInsert env LOG_PATH_KEY logOutputPath⟩]
   else [])
  ++ (if HTTP_CAPABILITY ∈ actor_caps then
    [⟨HTTP_CAPABILITY, none, HTTP_CAPABILITY_PUBKEY,
      envInsert env "PORT" (toString port_assigned)⟩]
   else [])

/-- The `for vol in &volumes` loop of `wasmcloud_run` under
`actor_caps.contains(FS_CAPABILITY)`: for each volume, build a fresh
`FileSystemProvider`, call `start_native_capability` with the volume name
as binding (aborting on `?` if the Host refuses), and push the
`Capability` entry with `ROOT` set to the volume's host path. -/
def provisionFsVolumes (hostOk : HostOp → Bool) (env : EnvVars) :
    List VolumeBinding → List HostOp × Except String (List Capability)
  | [] => ([], Except.ok [])
  | v :: rest =>
    let op := HostOp.start_native_capability FS_CAPABILITY (some v.name)
      FS_CAPABILITY_PUBKEY
    if hostOk op then
      match provisionFsVolumes hostOk env rest with
      | (ops, Except.ok caps) =>
        (op :: ops, Except.ok
          (⟨FS_CAPABILITY, some v.name, FS_CAPABILITY_PUBKEY,
            envInsert env FS_CONFIG_ROOTDIR v.host_path⟩ :: caps))
      | (ops, Except.error e) => (op :: ops, Except.error e)
    else ([op], Except.error "Failed to add File System capability")

/-- The `set_link` call made for one `Capability` entry. -/
def setLinkOp (pk : String) (c : Capability) : HostOp :=
  HostOp.set_link pk c.name c.binding c.capability_provider_id c.env

/-- The `for cap in capabilities` loop of `wasmcloud_run`: one `set_link`
per entry, the `?` aborting at the first Host error. -/
def setLinks (hostOk : HostOp → Bool) (pk : String) :
    List Capability → List HostOp × Option String
  | [] => ([], none)
  | c :: rest =>
    let op := setLinkOp pk c
    if hostOk op then
      let (ops, err) := setLinks hostOk pk rest
      (op :: ops, err)
    else ([op], some "Error configuring capabilities for module")

/-- The whole `if actor_caps.contains(FS_CAPABILITY) { for vol in &volumes
{ ... } }` block of `wasmcloud_run`: when the actor does not declare blob
storage, no provider is provisioned and no `Capability` entry is built. -/
def fsPart (hostOk : HostOp → Bool) (env : EnvVars)
    (volumes : List VolumeBinding) (actor_caps : List String) :
    List HostOp × Except String (List Capability) :=
  if FS_CAPABILITY ∈ actor_caps then provisionFsVolumes hostOk env volumes
  else ([], Except.ok [])

/-- `wasmcloud_run` from lib.rs.  `load` is the result of
`Actor::from_slice(&data)` (`none` = unparsable bytes); `logOutputPath` is
the path of the `NamedTempFile` created under `log_path`.  Returns the
Rust result (an `ActorHandle` on success; the container handle's log
factory carries no Host-visible state and is omitted) and the trace of
Host calls issued, in order. -/
def wasmcloud_run (hostOk : HostOp → Bool) (load : Option LoadedActor)
    (env : EnvVars) (volumes : List VolumeBinding) (logOutputPath : String)
    (port_assigned : Nat) : Except String ActorHandle × List HostOp :=
  match load with
  | none => (Except.error "Error loading WASM", [])
  | some actor =>
    let pk := actor.public_key
    let actor_caps := actor.capabilities
    let caps1 := logHttpCaps actor_caps env logOutputPath port_assigned
    match fsPart hostOk env volumes actor_caps with
    | (fsOps, Except.error e) => (Except.error e, fsOps)
    | (fsOps, Except.ok fsCaps) =>
      let capabilities := caps1 ++ fsCaps
      let startOp := HostOp.start_actor pk
      if hostOk startOp then
        match setLinks hostOk pk capabilities with
        | (linkOps, some e) => (Except.error e, fsOps ++ startOp :: linkOps)
        | (linkOps, none) =>
          (Except.ok ⟨pk, volumes, actor_caps⟩, fsOps ++ startOp :: linkOps)
      else (Except.error "Error adding actor", fsOps ++ [startOp])

/-- The two eager provisioning calls `WasmCloudProvider::new` makes at
startup: the HTTP and logging providers, each with binding `None`. -/
def startupProvisionOps : List HostOp :=
  [HostOp.start_native_capability HTTP_CAPABILITY none HTTP_CAPABILITY_PUBKEY,
   HostOp.start_native_capability LOG_CAPABILITY none LOG_CAPABILITY_PUBKEY]

/-- `kubelet::pod::PodKey`: the (namespace, pod name) pair keying the
handle table. -/
structure PodKey where
  nspace : String
  pod_name : String
  deriving DecidableEq, Repr

/-- `BTreeMap::get` on the handle table, modelled as an association list
with unique keys. -/
def lookupHandle (handles : List (PodKey × ActorHandle)) (k : PodKey) :
    Option ActorHandle :=
  (handles.find? fun p => p.1 = k).map Prod.snd

/-- Outcome of `WasmCloudProvider::logs`: either the
`ProviderError::PodNotFound` error or a delegation to the matched pod
handle's `output` for the requested container. -/
inductive LogsOutcome where
  | podNotFound (pod_name : String)
  | output (container_name : String)
  deriving DecidableEq, Repr

/-- `WasmCloudProvider::logs` (`impl Provider`): looks the `PodKey` built
from namespace and pod name up in the handle table; absent keys raise
`ProviderError::PodNotFound`, present ones stream via `handle.output`. -/
def WasmCloudProvider.logs (handles : List (PodKey × ActorHandle))
    (nspace pod_name container_name : String) : LogsOutcome :=
  match lookupHandle handles ⟨nspace, pod_name⟩ with
  | none => LogsOutcome.podNotFound pod_name
  | some _ => LogsOutcome.output container_name

/-- `ProviderState::stop` (`impl GenericProviderState`): if a handle is
registered for the pod's key, stop it (the kubelet pod handle delegates to
`ActorHandle::stop`); otherwise return `Ok(())` without touching the
Host. -/
def ProviderState.stop (hostOk : HostOp → Bool)
    (handles : List (PodKey × ActorHandle)) (key : PodKey) :
    Except String Unit × List HostOp :=
  match lookupHandle handles key with
  | some h => ActorHandle.stop hostOk h
  | none => (Except.ok (), [])

/-- `OP_BIND_ACTOR` (constant of the external wasmcloud-provider-core
crate; only its distinctness from the other operation names matters). -/
def OP_BIND_ACTOR : String := "BindActor"

/-- `OP_REMOVE_ACTOR` (external constant). -/
def OP_REMOVE_ACTOR : String := "RemoveActor"

/-- `OP_HEALTH_REQUEST` (external constant). -/
def OP_HEALTH_REQUEST : String := "HealthRequest"

/-- `OP_LOG` (external constant of wasmcloud-actor-logging). -/
def OP_LOG : String := "WriteLog"

/-- `SYSTEM_ACTOR`: origin of messages coming from the wasmcloud host. -/
def SYSTEM_ACTOR : String := "system"

/-- `wasmcloud_actor_core::CapabilityConfiguration`. -/
structure CapabilityConfiguration where
  module : String
  values : EnvVars
  deriving DecidableEq, Repr

/-- `wasmcloud_actor_logging::WriteLogArgs`. -/
structure WriteLogArgs where
  level : String
  target : String
  text : String
  deriving DecidableEq, Repr

/-- A raw message payload, as far as the two `deserialize::<T>` calls in
`handle_call` can distinguish it. -/
inductive Msg where
  | capCfg (c : CapabilityConfiguration)
  | logArgs (w : WriteLogArgs)
  | malformed
  deriving DecidableEq, Repr

/-- `deserialize::<CapabilityConfiguration>`. -/
def deserializeCapCfg : Msg → Except String CapabilityConfiguration
  | Msg.capCfg c => Except.ok c
  | _ => Except.error "deserialize error"

/-- `deserialize::<WriteLogArgs>`. -/
def deserializeWriteLogArgs : Msg → Except String WriteLogArgs
  | Msg.logArgs w => Except.ok w
  | _ => Except.error "deserialize error"

/-- `HashMap::get` on string-keyed maps modelled as association lists. -/
def envGet (env : EnvVars) (k : String) : Option String :=
  (env.find? fun p => p.1 = k).map Prod.snd

/-- `log::Level`, the target of the level-string match in `handle_call`. -/
inductive LogLevel where
  | error | warn | info | debug | trace
  deriving DecidableEq, Repr

/-- The `match &*log_msg.level` of `handle_call`: only the five lowercase
level names are accepted. -/
def parseLevel (s : String) : Option LogLevel :=
  if s = "error" then some LogLevel.error
  else if s = "warn" then some LogLevel.warn
  else if s = "info" then some LogLevel.info
  else if s = "debug" then some LogLevel.debug
  else if s = "trace" then some LogLevel.trace
  else none

/-- The `LoggingProvider` state: `output_map`, mapping an actor key to its
configured `WriteLogger` (represented by the log file path it writes
to). -/
structure LoggingProviderState where
  output_map : List (String × String)
  deriving DecidableEq, Repr

/-- One `logger.log(record)` call observed on a configured logger. -/
structure LogWrite where
  actor : String
  level : LogLevel
  target : String
  text : String
  deriving DecidableEq, Repr

/-- `LoggingProvider::configure`: requires a `LOG_PATH` entry in the
configuration values, opens that file for writing (`openOk` models the
fallible `OpenOptions::open`), and inserts the fresh `WriteLogger` into
`output_map` under the module key. -/
def LoggingProvider.configure (openOk : String → Bool)
    (st : LoggingProviderState) (config : CapabilityConfiguration) :
    Except String Unit × LoggingProviderState :=
  match envGet config.values LOG_PATH_KEY with
  | none => (Except.error "log file path was unspecified", st)
  | some path =>
    if openOk path then
      (Except.ok (),
       ⟨(config.module, path) ::
         (st.output_map.filter fun p => p.1 ≠ config.module)⟩)
    else (Except.error "could not open log file", st)

/-- `LoggingProvider::handle_call`: dispatch on `(op, actor)`.  Returns
the Rust result, the updated provider state, and the list of `logger.log`
calls performed (empty on every error path). -/
def LoggingProvider.handle_call (openOk : String → Bool)
    (st : LoggingProviderState) (actor op : String) (msg : Msg) :
    Except String Unit × LoggingProviderState × List LogWrite :=
  if op = OP_BIND_ACTOR ∧ actor = SYSTEM_ACTOR then
    match deserializeCapCfg msg with
    | Except.error e => (Except.error e, st, [])
    | Except.ok cfg =>
      let r := LoggingProvider.configure openOk st cfg
      (r.1, r.2, [])
  else if op = OP_REMOVE_ACTOR ∧ actor = SYSTEM_ACTOR then
    (Except.ok (), st, [])
  else if op = OP_HEALTH_REQUEST ∧ actor = SYSTEM_ACTOR then
    (Except.ok (), st, [])
  else if op = OP_LOG then
    match deserializeWriteLogArgs msg with
    | Except.error e => (Except.error e, st, [])
    | Except.ok log_msg =>
      match parseLevel log_msg.level with
      | none =>
        (Except.error ("Unknown log level " ++ log_msg.level), st, [])
      | some lvl =>
        match envGet st.output_map actor with
        | none =>
          (Except.error ("Unable to find logger for actor " ++ actor), st, [])
        | some _ =>
          (Except.ok (), st, [⟨actor, lvl, log_msg.target, log_msg.text⟩])
  else (Except.error ("Unknown operation: " ++ op), st, [])

instance : DecidableEq (Except String Unit) := fun a b =>
  match a, b with
  | Except.ok (), Except.ok () => isTrue rfl
  | Except.error e1, Except.error e2 =>
    if h : e1 = e2 then isTrue (by rw [h]) else isFalse (by simp [h])
  | Except.ok (), Except.error _ => isFalse (by simp)
  | Except.error _, Except.ok () => isFalse (by simp)

instance : DecidableEq (Except String ActorHandle) := fun a b =>
  match a, b with
  | Except.ok x, Except.ok y =>
    if h : x = y then isTrue (by rw [h]) else isFalse (by simp [h])
  | Except.error e1, Except.error e2 =>
    if h : e1 = e2 then isTrue (by rw [h]) else isFalse (by simp [h])
  | Except.ok _, Except.error _ => isFalse (by simp)
  | Except.error _, Except.ok _ => isFalse (by simp)

/-- A Host that answers every call successfully. -/
def allOk : HostOp → Bool := fun _ => true

/-- A Host that fails exactly the HTTP-capability unlink. -/
def failHttpUnlink : HostOp → Bool
  | HostOp.remove_link _ c _ => !(c == HTTP_CAPABILITY)
  | _ => true

/-- The per-volume teardown calls of the `FS_CAPABILITY` arm of
`ActorHandle::stop`, in volume-list order: `stop_provider` then
`remove_link` for each volume. -/
def fsTeardownOps (key : String) : List VolumeBinding → List HostOp
  | [] => []
  | v :: rest =>
    HostOp.stop_provider FS_CAPABILITY_PUBKEY FS_CAPABILITY (some v.name) ::
      HostOp.remove_link key FS_CAPABILITY (some v.name) ::
        fsTeardownOps key rest

/-- The Host calls `ActorHandle::stop` issues for one capability name when
every call succeeds. -/
def capTeardownOps (key : String) (vols : List VolumeBinding) (cap : String) :
    List HostOp :=
  if cap = FS_CAPABILITY then fsTeardownOps key vols
  else if cap = HTTP_CAPABILITY then [HostOp.remove_link key HTTP_CAPABILITY none]
  else if cap = LOG_CAPABILITY then [HostOp.remove_link key LOG_CAPABILITY none]
  else []

/-- The Host calls of the whole capability loop when every call succeeds:
they follow the order of the capability list, not a fixed precedence. -/
def capsTeardownOps (key : String) (vols : List VolumeBinding) :
    List String → List HostOp
  | [] => []
  | c :: rest => capTeardownOps key vols c ++ capsTeardownOps key vols rest

/-- The provisioning call `wasmcloud_run` issues for one volume. -/
def fsProvisionOp (v : VolumeBinding) : HostOp :=
  HostOp.start_native_capability FS_CAPABILITY (some v.name) FS_CAPABILITY_PUBKEY

/-- The `Capability` entry `wasmcloud_run` builds for one volume. -/
def fsVolumeCap (env : EnvVars) (v : VolumeBinding) : Capability :=
  ⟨FS_CAPABILITY, some v.name, FS_CAPABILITY_PUBKEY,
    envInsert env FS_CONFIG_ROOTDIR v.host_path⟩

/-- True exactly for the Host calls that remove state: `remove_link`,
`stop_provider`, `stop_actor`. -/
def isTeardown : HostOp → Bool
  | HostOp.remove_link _ _ _ => true
  | HostOp.stop_provider _ _ _ => true
  | HostOp.stop_actor _ => true
  | _ => false

/-- True exactly for `set_link` calls. -/
def isSetLink : HostOp → Bool
  | HostOp.set_link _ _ _ _ _ => true
  | _ => false

/-- A Host that fails exactly the HTTP-capability `set_link`. -/
def failHttpLink : HostOp → Bool
  | HostOp.set_link _ c _ _ _ => !(c == HTTP_CAPABILITY)
  | _ => true

/-- Number of `start_native_capability` registrations of the blob-store
provider for binding `b` in a Host trace. -/
def countFsProvisions (t : List HostOp) (b : String) : Nat :=
  (List.filter
    (fun op => decide (op = HostOp.start_native_capability FS_CAPABILITY
      (some b) FS_CAPABILITY_PUBKEY)) t).length

/-! ### Theorems -/

/-- If the teardown of one capability fails after the capabilities before
it succeeded, the capability loop of `ActorHandle::stop` returns that
error at once: the capabilities after the failing one contribute no Host
calls. -/
theorem stopCaps_first_error (hostOk : HostOp → Bool) (key : String)
    (vols : List VolumeBinding) (cap : String) (post : List String)
    (e : String) (pre : List String)
    (h1 : (stopCaps hostOk key vols pre).2 = none)
    (h2 : (stopCap hostOk key vols cap).2 = some e) :
    stopCaps hostOk key vols (pre ++ cap :: post) =
      ((stopCaps hostOk key vols pre).1 ++ (stopCap hostOk key vols cap).1,
        some e) := by
  induction pre with
  | nil =>
    rcases hc : stopCap hostOk key vols cap with ⟨ops, err⟩
    rw [hc] at h2
    simp only at h2
    subst h2
    simp [stopCaps, hc]
  | cons c pre ih =>
    rcases hc : stopCap hostOk key vols c with ⟨ops, err⟩
    cases err with
    | some e2 =>
      rw [stopCaps, hc] at h1
      simp at h1
    | none =>
      rw [stopCaps, hc] at h1
      simp only at h1
      have ih2 := ih h1
      simp [List.cons_append, stopCaps, hc, ih2, List.append_assoc]

/-- C1 (counterexample): for the handle with capability list
`[httpserver, logging]` and a Host that fails the HTTP unlink,
`ActorHandle::stop` issues only the failing HTTP unlink: the later
logging unlink and the final `stop_actor` are never issued and the error
is propagated immediately, contradicting the claim that teardown of the
remaining capabilities still happens with errors aggregated. -/
theorem C1_counterexample :
    ActorHandle.stop failHttpUnlink
        ⟨"MK", [], [HTTP_CAPABILITY, LOG_CAPABILITY]⟩ =
      (Except.error "unable to unlink http capability",
        [HostOp.remove_link "MK" HTTP_CAPABILITY none]) ∧
    HostOp.remove_link "MK" LOG_CAPABILITY none ∉
      (ActorHandle.stop failHttpUnlink
        ⟨"MK", [], [HTTP_CAPABILITY, LOG_CAPABILITY]⟩).2 ∧
    HostOp.stop_actor "MK" ∉
      (ActorHandle.stop failHttpUnlink
        ⟨"MK", [], [HTTP_CAPABILITY, LOG_CAPABILITY]⟩).2 := by
  refine ⟨by decide, by decide, by decide⟩

/-- C1 (amended): `ActorHandle::stop` propagates the first teardown error
via `?`: if the capabilities in `pre` tear down cleanly and the teardown
of `cap` fails with `e`, then `stop` on a handle whose capability list is
`pre ++ cap :: post` returns `Err(e)` having issued exactly the Host calls
for `pre` and for `cap` — nothing for `post` and no `stop_actor`. -/
theorem C1_stop_aborts_on_first_error (hostOk : HostOp → Bool) (key : String)
    (vols : List VolumeBinding) (pre : List String) (cap : String)
    (post : List String) (e : String)
    (h1 : (stopCaps hostOk key vols pre).2 = none)
    (h2 : (stopCap hostOk key vols cap).2 = some e) :
    ActorHandle.stop hostOk ⟨key, vols, pre ++ cap :: post⟩ =
      (Except.error e,
        (stopCaps hostOk key vols pre).1 ++ (stopCap hostOk key vols cap).1) := by
  have h := stopCaps_first_error hostOk key vols cap post e pre h1 h2
  simp [ActorHandle.stop, h]

/-- C1 (witness): the amended theorem applied to a two-capability handle
`[logging, httpserver]` whose HTTP unlink the Host refuses. -/
theorem C1_stop_aborts_on_first_error_witness :
    (stopCaps failHttpUnlink "MK" [] [LOG_CAPABILITY]).2 = none ∧
    (stopCap failHttpUnlink "MK" [] HTTP_CAPABILITY).2 =
      some "unable to unlink http capability" ∧
    ActorHandle.stop failHttpUnlink
        ⟨"MK", [], [LOG_CAPABILITY] ++ HTTP_CAPABILITY :: []⟩ =
      (Except.error "unable to unlink http capability",
        (stopCaps failHttpUnlink "MK" [] [LOG_CAPABILITY]).1 ++
          (stopCap failHttpUnlink "MK" [] HTTP_CAPABILITY).1) :=
  ⟨by decide, by decide,
    C1_stop_aborts_on_first_error failHttpUnlink "MK" [] [LOG_CAPABILITY]
      HTTP_CAPABILITY [] "unable to unlink http capability"
      (by decide) (by decide)⟩

/-- Inserting a capability whose teardown is a silent no-op anywhere in
the capability list leaves the whole capability loop unchanged. -/
theorem stopCaps_skip (hostOk : HostOp → Bool) (key : String)
    (vols : List VolumeBinding) (cap : String)
    (hcap : stopCap hostOk key vols cap = ([], none)) (pre post : List String) :
    stopCaps hostOk key vols (pre ++ cap :: post) =
      stopCaps hostOk key vols (pre ++ post) := by
  induction pre with
  | nil => simp [stopCaps, hcap]
  | cons c pre ih =>
    rcases hc : stopCap hostOk key vols c with ⟨ops, err⟩
    cases err with
    | some e => simp [stopCaps, hc]
    | none => simp [stopCaps, hc, ih]

/-- C9: any capability name other than the three managed ones
(`wasmcloud:blobstore`, `wasmcloud:httpserver`, `wasmcloud:logging`) is
silently skipped by `ActorHandle::stop`: its teardown issues no Host call
and reports no error, and removing it from the capability list leaves the
whole `stop` (result and Host trace) unchanged. -/
theorem C9_unmanaged_capability_skipped (hostOk : HostOp → Bool) (key : String)
    (vols : List VolumeBinding) (cap : String) (pre post : List String)
    (h1 : cap ≠ FS_CAPABILITY) (h2 : cap ≠ HTTP_CAPABILITY)
    (h3 : cap ≠ LOG_CAPABILITY) :
    stopCap hostOk key vols cap = ([], none) ∧
    ActorHandle.stop hostOk ⟨key, vols, pre ++ cap :: post⟩ =
      ActorHandle.stop hostOk ⟨key, vols, pre ++ post⟩ := by
  have hcap : stopCap hostOk key vols cap = ([], none) := by
    simp [stopCap, h1, h2, h3]
  exact ⟨hcap, by
    simp [ActorHandle.stop, stopCaps_skip hostOk key vols cap hcap pre post]⟩

/-- C9 (witness): a handle carrying the unmanaged name
`wasmcloud:keyvalue` next to the logging capability. -/
theorem C9_unmanaged_capability_skipped_witness :
    ("wasmcloud:keyvalue" ≠ FS_CAPABILITY ∧
      "wasmcloud:keyvalue" ≠ HTTP_CAPABILITY ∧
      "wasmcloud:keyvalue" ≠ LOG_CAPABILITY) ∧
    (stopCap allOk "MK" [] "wasmcloud:keyvalue" = ([], none) ∧
      ActorHandle.stop allOk
          ⟨"MK", [], [LOG_CAPABILITY] ++ "wasmcloud:keyvalue" :: []⟩ =
        ActorHandle.stop allOk ⟨"MK", [], [LOG_CAPABILITY] ++ []⟩) :=
  ⟨⟨by decide, by decide, by decide⟩,
    C9_unmanaged_capability_skipped allOk "MK" [] "wasmcloud:keyvalue"
      [LOG_CAPABILITY] [] (by decide) (by decide) (by decide)⟩

theorem stopFsVolume_ok (hostOk : HostOp → Bool) (key : String)
    (v : VolumeBinding) (h : (stopFsVolume hostOk key v).2 = none) :
    (stopFsVolume hostOk key v).1 =
      [HostOp.stop_provider FS_CAPABILITY_PUBKEY FS_CAPABILITY (some v.name),
       HostOp.remove_link key FS_CAPABILITY (some v.name)] := by
  by_cases h1 : hostOk (HostOp.stop_provider FS_CAPABILITY_PUBKEY FS_CAPABILITY
      (some v.name))
  · by_cases h2 : hostOk (HostOp.remove_link key FS_CAPABILITY (some v.name))
    · simp [stopFsVolume, h1, h2]
    · simp [stopFsVolume, h1, h2] at h
  · simp [stopFsVolume, h1] at h

theorem stopFsVolumes_ok (hostOk : HostOp → Bool) (key : String)
    (vols : List VolumeBinding) (h : (stopFsVolumes hostOk key vols).2 = none) :
    (stopFsVolumes hostOk key vols).1 = fsTeardownOps key vols := by
  induction vols with
  | nil => simp [stopFsVolumes, fsTeardownOps]
  | cons v rest ih =>
    rcases hv : stopFsVolume hostOk key v with ⟨ops, err⟩
    cases err with
    | some e => rw [stopFsVolumes, hv] at h ⊢; simp at h
    | none =>
      rw [stopFsVolumes, hv] at h ⊢
      simp only at h
      have hops : ops =
          [HostOp.stop_provider FS_CAPABILITY_PUBKEY FS_CAPABILITY (some v.name),
           HostOp.remove_link key FS_CAPABILITY (some v.name)] := by
        have := stopFsVolume_ok hostOk key v (by rw [hv])
        rwa [hv] at this
      simp [fsTeardownOps, hops, ih h]

theorem http_ne_fs : HTTP_CAPABILITY ≠ FS_CAPABILITY := by decide

theorem log_ne_fs : LOG_CAPABILITY ≠ FS_CAPABILITY := by decide

theorem log_ne_http : LOG_CAPABILITY ≠ HTTP_CAPABILITY := by decide

theorem stopCap_ok (hostOk : HostOp → Bool) (key : String)
    (vols : List VolumeBinding) (cap : String)
    (h : (stopCap hostOk key vols cap).2 = none) :
    (stopCap hostOk key vols cap).1 = capTeardownOps key vols cap := by
  by_cases hf : cap = FS_CAPABILITY
  · rw [stopCap, if_pos hf] at h ⊢
    rw [capTeardownOps, if_pos hf]
    exact stopFsVolumes_ok hostOk key vols h
  · by_cases hh : cap = HTTP_CAPABILITY
    · subst hh
      simp [stopCap, capTeardownOps, http_ne_fs]
    · by_cases hl : cap = LOG_CAPABILITY
      · subst hl
        simp [stopCap, capTeardownOps, log_ne_fs, log_ne_http]
      · simp [stopCap, capTeardownOps, hf, hh, hl]

theorem stopCaps_ok (hostOk : HostOp → Bool) (key : String)
    (vols : List VolumeBinding) (caps : List String)
    (h : (stopCaps hostOk key vols caps).2 = none) :
    (stopCaps hostOk key vols caps).1 = capsTeardownOps key vols caps := by
  induction caps with
  | nil => simp [stopCaps, capsTeardownOps]
  | cons c rest ih =>
    rcases hc : stopCap hostOk key vols c with ⟨ops, err⟩
    cases err with
    | some e => rw [stopCaps, hc] at h; simp at h
    | none =>
      rw [stopCaps, hc] at h ⊢
      simp only at h
      have hops : ops = capTeardownOps key vols c := by
        have := stopCap_ok hostOk key vols c (by rw [hc])
        rwa [hc] at this
      simp [capsTeardownOps, hops, ih h]

/-- C5 (counterexample): for the handle whose capability list is
`[logging, httpserver]`, `ActorHandle::stop` unlinks logging *before*
HTTP: the teardown follows the order of the capability list, so the
claimed fixed reverse precedence (blob storage, then HTTP, then logging,
regardless of list order) is violated. -/
theorem C5_counterexample :
    (ActorHandle.stop allOk ⟨"MK", [], [LOG_CAPABILITY, HTTP_CAPABILITY]⟩).2 =
      [HostOp.remove_link "MK" LOG_CAPABILITY none,
       HostOp.remove_link "MK" HTTP_CAPABILITY none,
       HostOp.stop_actor "MK"] ∧
    List.indexOf (HostOp.remove_link "MK" LOG_CAPABILITY none)
        (ActorHandle.stop allOk
          ⟨"MK", [], [LOG_CAPABILITY, HTTP_CAPABILITY]⟩).2 <
      List.indexOf (HostOp.remove_link "MK" HTTP_CAPABILITY none)
        (ActorHandle.stop allOk
          ⟨"MK", [], [LOG_CAPABILITY, HTTP_CAPABILITY]⟩).2 := by
  refine ⟨by rfl, by decide⟩

/-- C5 (amended): when the capability loop succeeds, the Host calls of
`ActorHandle::stop` follow the order of the handle's capability list (for
blob storage, per volume in volume-list order, `stop_provider` before
`remove_link`), with `stop_actor` last — not the fixed reverse precedence
the claim states. -/
theorem C5_teardown_follows_list_order (hostOk : HostOp → Bool)
    (hdl : ActorHandle)
    (h : (stopCaps hostOk hdl.key hdl.volumes hdl.capabilities).2 = none) :
    (ActorHandle.stop hostOk hdl).2 =
      capsTeardownOps hdl.key hdl.volumes hdl.capabilities ++
        [HostOp.stop_actor hdl.key] := by
  rcases hs : stopCaps hostOk hdl.key hdl.volumes hdl.capabilities with ⟨ops, err⟩
  rw [hs] at h
  simp only at h
  subst h
  have hops : ops = capsTeardownOps hdl.key hdl.volumes hdl.capabilities := by
    have := stopCaps_ok hostOk hdl.key hdl.volumes hdl.capabilities (by rw [hs])
    rwa [hs] at this
  by_cases ha : hostOk (HostOp.stop_actor hdl.key)
  · simp [ActorHandle.stop, hs, ha, hops]
  · simp [ActorHandle.stop, hs, ha, hops]

/-- C5 (witness): the amended theorem on a handle listing the capabilities
as `[logging, blobstore, httpserver]` with one volume. -/
theorem C5_teardown_follows_list_order_witness :
    (stopCaps allOk "MK" [⟨"data", "/v/data"⟩]
        [LOG_CAPABILITY, FS_CAPABILITY, HTTP_CAPABILITY]).2 = none ∧
    (ActorHandle.stop allOk
        ⟨"MK", [⟨"data", "/v/data"⟩],
          [LOG_CAPABILITY, FS_CAPABILITY, HTTP_CAPABILITY]⟩).2 =
      capsTeardownOps "MK" [⟨"data", "/v/data"⟩]
          [LOG_CAPABILITY, FS_CAPABILITY, HTTP_CAPABILITY] ++
        [HostOp.stop_actor "MK"] :=
  ⟨by decide,
    C5_teardown_follows_list_order allOk
      ⟨"MK", [⟨"data", "/v/data"⟩],
        [LOG_CAPABILITY, FS_CAPABILITY, HTTP_CAPABILITY]⟩ (by decide)⟩

/-- C7: on bytes that do not parse as a valid signed module
(`Actor::from_slice` fails), `wasmcloud_run` returns the module-load error
with an empty Host trace: no provider is provisioned, no actor is
started, no link is set. -/
theorem C7_invalid_module_touches_no_host (hostOk : HostOp → Bool)
    (env : EnvVars) (volumes : List VolumeBinding) (logOutputPath : String)
    (port : Nat) :
    wasmcloud_run hostOk none env volumes logOutputPath port =
      (Except.error "Error loading WASM", []) := rfl

/-- C8: for a workload key with no live handle, `WasmCloudProvider::logs`
fails with `ProviderError::PodNotFound`, while `ProviderState::stop`
returns `Ok(())` without issuing any Host call. -/
theorem C8_absent_workload (hostOk : HostOp → Bool)
    (handles : List (PodKey × ActorHandle)) (k : PodKey)
    (container_name : String) (habs : lookupHandle handles k = none) :
    WasmCloudProvider.logs handles k.nspace k.pod_name container_name =
      LogsOutcome.podNotFound k.pod_name ∧
    ProviderState.stop hostOk handles k = (Except.ok (), []) := by
  obtain ⟨ns, pn⟩ := k
  exact ⟨by simp [WasmCloudProvider.logs, habs],
    by simp [ProviderState.stop, habs]⟩

/-- C8 (witness): the empty handle table and the key `default/web`. -/
theorem C8_absent_workload_witness :
    lookupHandle ([] : List (PodKey × ActorHandle)) ⟨"default", "web"⟩ = none ∧
    (WasmCloudProvider.logs [] "default" "web" "c" =
        LogsOutcome.podNotFound "web" ∧
      ProviderState.stop allOk [] ⟨"default", "web"⟩ = (Except.ok (), [])) :=
  ⟨rfl, C8_absent_workload allOk [] ⟨"default", "web"⟩ "c" rfl⟩

/-- C10: `LoggingProvider::handle_call` on the log-write operation returns
an error, performs no write, and leaves the provider state unchanged,
whenever the calling actor has no configured logger in `output_map` or
the message's level string is not one of error/warn/info/debug/trace. -/
theorem C10_write_log_error_paths (openOk : String → Bool)
    (st : LoggingProviderState) (actor : String) (w : WriteLogArgs)
    (h : envGet st.output_map actor = none ∨ parseLevel w.level = none) :
    ∃ e, LoggingProvider.handle_call openOk st actor OP_LOG (Msg.logArgs w) =
      (Except.error e, st, []) := by
  have h1 : ¬(OP_LOG = OP_BIND_ACTOR ∧ actor = SYSTEM_ACTOR) := by
    intro hx
    exact absurd hx.1 (by decide)
  have h2 : ¬(OP_LOG = OP_REMOVE_ACTOR ∧ actor = SYSTEM_ACTOR) := by
    intro hx
    exact absurd hx.1 (by decide)
  have h3 : ¬(OP_LOG = OP_HEALTH_REQUEST ∧ actor = SYSTEM_ACTOR) := by
    intro hx
    exact absurd hx.1 (by decide)
  rw [LoggingProvider.handle_call, if_neg h1, if_neg h2, if_neg h3,
    if_pos rfl]
  cases hl : parseLevel w.level with
  | none =>
    exact ⟨"Unknown log level " ++ w.level,
      by simp [deserializeWriteLogArgs, hl]⟩
  | some lvl =>
    rcases h with hmap | hpl
    · exact ⟨"Unable to find logger for actor " ++ actor,
        by simp [deserializeWriteLogArgs, hl, hmap]⟩
    · rw [hpl] at hl
      cases hl

/-- C10 (witness): an empty output map, so actor `a` has no logger, while
the level `info` itself is valid. -/
theorem C10_write_log_error_paths_witness :
    envGet (LoggingProviderState.mk []).output_map "a" = none ∧
    ∃ e, LoggingProvider.handle_call (fun _ => true) ⟨[]⟩ "a" OP_LOG
        (Msg.logArgs ⟨"info", "t", "m"⟩) = (Except.error e, ⟨[]⟩, []) :=
  ⟨rfl, C10_write_log_error_paths (fun _ => true) ⟨[]⟩ "a" ⟨"info", "t", "m"⟩
    (Or.inl rfl)⟩

theorem provisionFs_ops_mem (hostOk : HostOp → Bool) (env : EnvVars)
    (vols : List VolumeBinding) :
    ∀ op ∈ (provisionFsVolumes hostOk env vols).1,
      ∃ v, v ∈ vols ∧ op = fsProvisionOp v := by
  induction vols with
  | nil => intro op hop; simp [provisionFsVolumes] at hop
  | cons v rest ih =>
    intro op hop
    by_cases hv : hostOk (HostOp.start_native_capability FS_CAPABILITY
        (some v.name) FS_CAPABILITY_PUBKEY)
    · rcases hr : provisionFsVolumes hostOk env rest with ⟨ops, res⟩
      cases res with
      | ok caps =>
        simp only [provisionFsVolumes, hv, hr, if_true, if_pos] at hop
        simp only [List.mem_cons] at hop
        rcases hop with hop | hop
        · exact ⟨v, List.mem_cons_self v rest, by simp [fsProvisionOp, hop]⟩
        · obtain ⟨w, hw, hop⟩ := ih op (by rw [hr]; exact hop)
          exact ⟨w, List.mem_cons_of_mem v hw, hop⟩
      | error e =>
        simp only [provisionFsVolumes, hv, hr, if_true, if_pos] at hop
        simp only [List.mem_cons] at hop
        rcases hop with hop | hop
        · exact ⟨v, List.mem_cons_self v rest, by simp [fsProvisionOp, hop]⟩
        · obtain ⟨w, hw, hop⟩ := ih op (by rw [hr]; exact hop)
          exact ⟨w, List.mem_cons_of_mem v hw, hop⟩
    · simp [provisionFsVolumes, hv] at hop
      exact ⟨v, List.mem_cons_self v rest, by simp [fsProvisionOp, hop]⟩

theorem provisionFs_ok_shape (hostOk : HostOp → Bool) (env : EnvVars)
    (vols : List VolumeBinding) (caps : List Capability)
    (h : (provisionFsVolumes hostOk env vols).2 = Except.ok caps) :
    (provisionFsVolumes hostOk env vols).1 = vols.map fsProvisionOp ∧
      caps = vols.map (fsVolumeCap env) := by
  induction vols generalizing caps with
  | nil =>
    simp [provisionFsVolumes] at h
    simp [provisionFsVolumes, h]
  | cons v rest ih =>
    by_cases hv : hostOk (HostOp.start_native_capability FS_CAPABILITY
        (some v.name) FS_CAPABILITY_PUBKEY)
    · rcases hr : provisionFsVolumes hostOk env rest with ⟨ops, res⟩
      cases res with
      | ok caps' =>
        obtain ⟨ih1, ih2⟩ := ih caps' (by rw [hr])
        rw [hr] at ih1
        simp only [provisionFsVolumes, hv, hr, if_true, if_pos,
          Except.ok.injEq] at h ⊢
        subst h
        have ih1' : ops = List.map fsProvisionOp rest := ih1
        simp [fsProvisionOp, fsVolumeCap, ih1', ih2]
      | error e =>
        simp [provisionFsVolumes, hv, hr] at h
    · simp [provisionFsVolumes, hv] at h

theorem provisionFs_ok_allOk (hostOk : HostOp → Bool) (env : EnvVars)
    (vols : List VolumeBinding) (caps : List Capability)
    (h : (provisionFsVolumes hostOk env vols).2 = Except.ok caps) :
    ∀ op ∈ (provisionFsVolumes hostOk env vols).1, hostOk op = true := by
  induction vols generalizing caps with
  | nil => intro op hop; simp [provisionFsVolumes] at hop
  | cons v rest ih =>
    intro op hop
    by_cases hv : hostOk (HostOp.start_native_capability FS_CAPABILITY
        (some v.name) FS_CAPABILITY_PUBKEY)
    · rcases hr : provisionFsVolumes hostOk env rest with ⟨ops, res⟩
      cases res with
      | ok caps' =>
        simp only [provisionFsVolumes, hv, hr, if_true, if_pos,
          List.mem_cons] at hop
        rcases hop with hop | hop
        · rw [hop]; exact hv
        · exact ih caps' (by rw [hr]) op (by rw [hr]; exact hop)
      | error e =>
        simp [provisionFsVolumes, hv, hr] at h
    · simp [provisionFsVolumes, hv] at h

theorem setLinks_ops_mem (hostOk : HostOp → Bool) (pk : String)
    (caps : List Capability) :
    ∀ op ∈ (setLinks hostOk pk caps).1, ∃ c, c ∈ caps ∧ op = setLinkOp pk c := by
  induction caps with
  | nil => intro op hop; simp [setLinks] at hop
  | cons c rest ih =>
    intro op hop
    by_cases hc : hostOk (setLinkOp pk c)
    · rcases hr : setLinks hostOk pk rest with ⟨ops, err⟩
      simp only [setLinks, hc, hr, if_true, if_pos, List.mem_cons] at hop
      rcases hop with hop | hop
      · exact ⟨c, List.mem_cons_self c rest, hop⟩
      · obtain ⟨d, hd, hop⟩ := ih op (by rw [hr]; exact hop)
        exact ⟨d, List.mem_cons_of_mem c hd, hop⟩
    · simp [setLinks, hc] at hop
      exact ⟨c, List.mem_cons_self c rest, hop⟩

theorem setLinks_none_shape (hostOk : HostOp → Bool) (pk : String)
    (caps : List Capability) (h : (setLinks hostOk pk caps).2 = none) :
    (setLinks hostOk pk caps).1 = caps.map (setLinkOp pk) := by
  induction caps with
  | nil => simp [setLinks]
  | cons c rest ih =>
    by_cases hc : hostOk (setLinkOp pk c)
    · rcases hr : setLinks hostOk pk rest with ⟨ops, err⟩
      rw [setLinks] at h ⊢
      simp only [hc, hr, if_true, if_pos] at h ⊢
      subst h
      have h2 : ops = List.map (setLinkOp pk) rest := by
        have := ih (by rw [hr])
        rw [hr] at this
        exact this
      simp [h2]
    · rw [setLinks] at h
      simp [hc] at h

theorem setLinks_none_allOk (hostOk : HostOp → Bool) (pk : String)
    (caps : List Capability) (h : (setLinks hostOk pk caps).2 = none) :
    ∀ op ∈ (setLinks hostOk pk caps).1, hostOk op = true := by
  induction caps with
  | nil => intro op hop; simp [setLinks] at hop
  | cons c rest ih =>
    intro op hop
    by_cases hc : hostOk (setLinkOp pk c)
    · rcases hr : setLinks hostOk pk rest with ⟨ops, err⟩
      rw [setLinks] at h hop
      simp only [hc, hr, if_true, if_pos, List.mem_cons] at h hop
      subst h
      rcases hop with hop | hop
      · rw [hop]; exact hc
      · exact ih (by rw [hr]) op (by rw [hr]; exact hop)
    · rw [setLinks] at h
      simp [hc] at h

theorem setLinks_split (hostOk : HostOp → Bool) (pk : String)
    (caps : List Capability) :
    ∃ caps1 caps2, caps = caps1 ++ caps2 ∧
      (setLinks hostOk pk caps).1 = caps1.map (setLinkOp pk) := by
  induction caps with
  | nil => exact ⟨[], [], rfl, by simp [setLinks]⟩
  | cons c rest ih =>
    by_cases hc : hostOk (setLinkOp pk c)
    · obtain ⟨caps1, caps2, hsplit, hops⟩ := ih
      rcases hr : setLinks hostOk pk rest with ⟨ops, err⟩
      rw [hr] at hops
      refine ⟨c :: caps1, caps2, by simp [hsplit], ?_⟩
      rw [setLinks]
      simp [hc, hr, hops]
    · refine ⟨[c], rest, rfl, ?_⟩
      rw [setLinks]
      simp [hc]

theorem fsPart_ops_mem (hostOk : HostOp → Bool) (env : EnvVars)
    (vols : List VolumeBinding) (acaps : List String) :
    ∀ op ∈ (fsPart hostOk env vols acaps).1,
      ∃ v, v ∈ vols ∧ op = fsProvisionOp v := by
  intro op hop
  rw [fsPart] at hop
  by_cases hmem : FS_CAPABILITY ∈ acaps
  · rw [if_pos hmem] at hop
    exact provisionFs_ops_mem hostOk env vols op hop
  · rw [if_neg hmem] at hop
    simp at hop

theorem fsPart_ok_shape (hostOk : HostOp → Bool) (env : EnvVars)
    (vols : List VolumeBinding) (acaps : List String) (fsCaps : List Capability)
    (h : (fsPart hostOk env vols acaps).2 = Except.ok fsCaps) :
    (fsPart hostOk env vols acaps).1 =
      (if FS_CAPABILITY ∈ acaps then List.map fsProvisionOp vols else []) ∧
    fsCaps =
      (if FS_CAPABILITY ∈ acaps then List.map (fsVolumeCap env) vols else []) := by
  by_cases hmem : FS_CAPABILITY ∈ acaps
  · rw [fsPart, if_pos hmem] at h
    have hs := provisionFs_ok_shape hostOk env vols fsCaps h
    simp [fsPart, hmem, hs.1, hs.2]
  · rw [fsPart, if_neg hmem] at h
    simp at h
    simp [fsPart, hmem, h]

theorem fsPart_ok_allOk (hostOk : HostOp → Bool) (env : EnvVars)
    (vols : List VolumeBinding) (acaps : List String) (fsCaps : List Capability)
    (h : (fsPart hostOk env vols acaps).2 = Except.ok fsCaps) :
    ∀ op ∈ (fsPart hostOk env vols acaps).1, hostOk op = true := by
  intro op hop
  rw [fsPart] at h hop
  by_cases hmem : FS_CAPABILITY ∈ acaps
  · rw [if_pos hmem] at h hop
    exact provisionFs_ok_allOk hostOk env vols fsCaps h op hop
  · rw [if_neg hmem] at hop
    simp at hop

/-- Case analysis of `wasmcloud_run` on a parsed actor: the only four ways
an execution can end, each with its exact Rust result and Host trace. -/
theorem run_cases (hostOk : HostOp → Bool) (actor : LoadedActor)
    (env : EnvVars) (vols : List VolumeBinding) (lp : String) (port : Nat) :
    (∃ e, (fsPart hostOk env vols actor.capabilities).2 = Except.error e ∧
      wasmcloud_run hostOk (some actor) env vols lp port =
        (Except.error e, (fsPart hostOk env vols actor.capabilities).1)) ∨
    (∃ fsCaps,
      (fsPart hostOk env vols actor.capabilities).2 = Except.ok fsCaps ∧
      ((hostOk (HostOp.start_actor actor.public_key) = false ∧
        wasmcloud_run hostOk (some actor) env vols lp port =
          (Except.error "Error adding actor",
            (fsPart hostOk env vols actor.capabilities).1 ++
              [HostOp.start_actor actor.public_key])) ∨
      (hostOk (HostOp.start_actor actor.public_key) = true ∧
        ((∃ e, (setLinks hostOk actor.public_key
              (logHttpCaps actor.capabilities env lp port ++ fsCaps)).2 =
                some e ∧
          wasmcloud_run hostOk (some actor) env vols lp port =
            (Except.error e,
              (fsPart hostOk env vols actor.capabilities).1 ++
                HostOp.start_actor actor.public_key ::
                  (setLinks hostOk actor.public_key
                    (logHttpCaps actor.capabilities env lp port ++
                      fsCaps)).1)) ∨
        ((setLinks hostOk actor.public_key
            (logHttpCaps actor.capabilities env lp port ++ fsCaps)).2 =
              none ∧
          wasmcloud_run hostOk (some actor) env vols lp port =
            (Except.ok ⟨actor.public_key, vols, actor.capabilities⟩,
              (fsPart hostOk env vols actor.capabilities).1 ++
                HostOp.start_actor actor.public_key ::
                  (setLinks hostOk actor.public_key
                    (logHttpCaps actor.capabilities env lp port ++
                      fsCaps)).1)))))) := by
  rcases hfs : fsPart hostOk env vols actor.capabilities with ⟨fsOps, fsRes⟩
  cases fsRes with
  | error e =>
    left
    exact ⟨e, rfl, by simp [wasmcloud_run, hfs]⟩
  | ok fsCaps =>
    right
    refine ⟨fsCaps, rfl, ?_⟩
    by_cases hstart : hostOk (HostOp.start_actor actor.public_key)
    · right
      refine ⟨hstart, ?_⟩
      rcases hsl : setLinks hostOk actor.public_key
          (logHttpCaps actor.capabilities env lp port ++ fsCaps) with
        ⟨linkOps, err⟩
      cases err with
      | some e =>
        left
        exact ⟨e, rfl, by simp [wasmcloud_run, hfs, hstart, hsl]⟩
      | none =>
        right
        exact ⟨rfl, by simp [wasmcloud_run, hfs, hstart, hsl]⟩
    · left
      exact ⟨by simp [hstart], by simp [wasmcloud_run, hfs, hstart]⟩

/-- C4: `wasmcloud_run` performs no rollback: its Host trace never
contains a `remove_link`, `stop_provider` or `stop_actor` call, so every
link established before a failure and the already-started actor stay in
the Host; and whenever any issued Host call failed (in particular a
failed `set_link`), the run returns an error. -/
theorem C4_run_does_not_roll_back (hostOk : HostOp → Bool)
    (load : Option LoadedActor) (env : EnvVars) (vols : List VolumeBinding)
    (lp : String) (port : Nat) :
    (∀ op ∈ (wasmcloud_run hostOk load env vols lp port).2,
      isTeardown op = false) ∧
    ((∃ op ∈ (wasmcloud_run hostOk load env vols lp port).2,
        hostOk op = false) →
      ∃ e, (wasmcloud_run hostOk load env vols lp port).1 = Except.error e) := by
  cases load with
  | none =>
    constructor
    · intro op hop
      simp [wasmcloud_run] at hop
    · rintro ⟨op, hop, _⟩
      simp [wasmcloud_run] at hop
  | some actor =>
    rcases run_cases hostOk actor env vols lp port with
      ⟨e, hfs, hrun⟩ | ⟨fsCaps, hfs, hrest⟩
    · rw [hrun]
      constructor
      · intro op hop
        obtain ⟨v, _, hv⟩ := fsPart_ops_mem hostOk env vols actor.capabilities
          op hop
        rw [hv]; rfl
      · intro _
        exact ⟨e, rfl⟩
    · rcases hrest with ⟨hstart, hrun⟩ | ⟨hstart, hlinks⟩
      · rw [hrun]
        constructor
        · intro op hop
          simp only [List.mem_append, List.mem_singleton] at hop
          rcases hop with hop | hop
          · obtain ⟨v, _, hv⟩ := fsPart_ops_mem hostOk env vols
              actor.capabilities op hop
            rw [hv]; rfl
          · rw [hop]; rfl
        · intro _
          exact ⟨"Error adding actor", rfl⟩
      · rcases hlinks with ⟨e, hsl, hrun⟩ | ⟨hsl, hrun⟩
        · rw [hrun]
          constructor
          · intro op hop
            simp only [List.mem_append, List.mem_cons] at hop
            rcases hop with hop | hop | hop
            · obtain ⟨v, _, hv⟩ := fsPart_ops_mem hostOk env vols
                actor.capabilities op hop
              rw [hv]; rfl
            · rw [hop]; rfl
            · obtain ⟨c, _, hc⟩ := setLinks_ops_mem hostOk actor.public_key
                _ op hop
              rw [hc]; rfl
          · intro _
            exact ⟨e, rfl⟩
        · rw [hrun]
          constructor
          · intro op hop
            simp only [List.mem_append, List.mem_cons] at hop
            rcases hop with hop | hop | hop
            · obtain ⟨v, _, hv⟩ := fsPart_ops_mem hostOk env vols
                actor.capabilities op hop
              rw [hv]; rfl
            · rw [hop]; rfl
            · obtain ⟨c, _, hc⟩ := setLinks_ops_mem hostOk actor.public_key
                _ op hop
              rw [hc]; rfl
          · rintro ⟨op, hop, hfail⟩
            exfalso
            simp only [List.mem_append, List.mem_cons] at hop
            rcases hop with hop | hop | hop
            · rw [fsPart_ok_allOk hostOk env vols actor.capabilities fsCaps
                hfs op hop] at hfail
              cases hfail
            · rw [hop] at hfail
              rw [hstart] at hfail
              cases hfail
            · rw [setLinks_none_allOk hostOk actor.public_key _ hsl op hop]
                at hfail
              cases hfail

/-- C4 (witness): a run of an actor declaring logging and HTTP against a
Host that refuses the HTTP `set_link`: the logging link issued before the
failure is not a teardown call (nothing is), and the run errors. -/
theorem C4_run_does_not_roll_back_witness :
    isTeardown (HostOp.set_link "AK" LOG_CAPABILITY none LOG_CAPABILITY_PUBKEY
      [(LOG_PATH_KEY, "/t")]) = false ∧
    ∃ e, (wasmcloud_run failHttpLink
      (some ⟨"AK", [LOG_CAPABILITY, HTTP_CAPABILITY]⟩) [] [] "/t" 80).1 =
        Except.error e :=
  ⟨(C4_run_does_not_roll_back failHttpLink
      (some ⟨"AK", [LOG_CAPABILITY, HTTP_CAPABILITY]⟩) [] [] "/t" 80).1
      _ (by decide),
    (C4_run_does_not_roll_back failHttpLink
      (some ⟨"AK", [LOG_CAPABILITY, HTTP_CAPABILITY]⟩) [] [] "/t" 80).2
      ⟨HostOp.set_link "AK" HTTP_CAPABILITY none HTTP_CAPABILITY_PUBKEY
        [("PORT", "80")], by decide, by decide⟩⟩

/-- C2 (counterexample): an actor declaring only the unmanaged capability
`wasmcloud:keyvalue` runs successfully; the returned handle's
`capabilities` list contains that name although the run issued no
`set_link` at all — so the list is not "exactly the capabilities for
which a link was established", and "name in list iff link in Host"
fails. -/
theorem C2_counterexample :
    wasmcloud_run allOk (some ⟨"AK", ["wasmcloud:keyvalue"]⟩) [] [] "/t" 80 =
      (Except.ok ⟨"AK", [], ["wasmcloud:keyvalue"]⟩,
        [HostOp.start_actor "AK"]) ∧
    List.filter isSetLink
      (wasmcloud_run allOk
        (some ⟨"AK", ["wasmcloud:keyvalue"]⟩) [] [] "/t" 80).2 = [] := by
  exact ⟨by rfl, by rfl⟩

/-- C2 (amended): on a successful run the handle's `capabilities` field is
the actor's *declared* capability list (`actor_caps`), and the `set_link`
calls actually issued are exactly one per managed declared capability
(logging, then HTTP, then blob storage once per volume) — unmanaged
declared names appear in the list without any link. -/
theorem C2_capabilities_field_is_declared_list (hostOk : HostOp → Bool)
    (actor : LoadedActor) (env : EnvVars) (vols : List VolumeBinding)
    (lp : String) (port : Nat) (h : ActorHandle)
    (hok : (wasmcloud_run hostOk (some actor) env vols lp port).1 =
      Except.ok h) :
    h.capabilities = actor.capabilities ∧
    List.filter isSetLink
        (wasmcloud_run hostOk (some actor) env vols lp port).2 =
      List.map (setLinkOp actor.public_key)
        (logHttpCaps actor.capabilities env lp port ++
          (if FS_CAPABILITY ∈ actor.capabilities then
            List.map (fsVolumeCap env) vols else [])) := by
  rcases run_cases hostOk actor env vols lp port with
    ⟨e, hfs, hrun⟩ | ⟨fsCaps, hfs, hrest⟩
  · rw [hrun] at hok
    cases hok
  · rcases hrest with ⟨hstart, hrun⟩ | ⟨hstart, hlinks⟩
    · rw [hrun] at hok
      cases hok
    · rcases hlinks with ⟨e, hsl, hrun⟩ | ⟨hsl, hrun⟩
      · rw [hrun] at hok
        cases hok
      · rw [hrun] at hok
        simp only at hok
        injection hok with hok
        subst hok
        obtain ⟨hfs1, hfs2⟩ := fsPart_ok_shape hostOk env vols
          actor.capabilities fsCaps hfs
        constructor
        · rfl
        · rw [hrun]
          simp only [List.filter_append, List.filter_cons]
          have hfsnil : List.filter isSetLink
              (fsPart hostOk env vols actor.capabilities).1 = [] := by
            rw [List.filter_eq_nil_iff]
            intro op hop
            obtain ⟨v, _, hv⟩ := fsPart_ops_mem hostOk env vols
              actor.capabilities op hop
            rw [hv]
            simp [fsProvisionOp, isSetLink]
          have hlshape := setLinks_none_shape hostOk actor.public_key
            (logHttpCaps actor.capabilities env lp port ++ fsCaps) hsl
          have hlfull : List.filter isSetLink
              (setLinks hostOk actor.public_key
                (logHttpCaps actor.capabilities env lp port ++ fsCaps)).1 =
              (setLinks hostOk actor.public_key
                (logHttpCaps actor.capabilities env lp port ++ fsCaps)).1 := by
            rw [List.filter_eq_self]
            intro op hop
            obtain ⟨c, _, hc⟩ := setLinks_ops_mem hostOk actor.public_key
              _ op hop
            rw [hc]
            simp [setLinkOp, isSetLink]
          rw [hfsnil, hlfull, hlshape, hfs2]
          simp [isTeardown, isSetLink]

/-- C2 (witness): the amended theorem on an actor declaring logging plus
the unmanaged `wasmcloud:keyvalue`, with one (unused) volume. -/
theorem C2_capabilities_field_is_declared_list_witness :
    (wasmcloud_run allOk
        (some ⟨"AK", [LOG_CAPABILITY, "wasmcloud:keyvalue"]⟩)
        [] [⟨"data", "/d"⟩] "/t" 80).1 =
      Except.ok ⟨"AK", [⟨"data", "/d"⟩],
        [LOG_CAPABILITY, "wasmcloud:keyvalue"]⟩ ∧
    ((ActorHandle.mk "AK" [⟨"data", "/d"⟩]
        [LOG_CAPABILITY, "wasmcloud:keyvalue"]).capabilities =
      (LoadedActor.mk "AK" [LOG_CAPABILITY, "wasmcloud:keyvalue"]).capabilities ∧
    List.filter isSetLink
        (wasmcloud_run allOk
          (some ⟨"AK", [LOG_CAPABILITY, "wasmcloud:keyvalue"]⟩)
          [] [⟨"data", "/d"⟩] "/t" 80).2 =
      List.map (setLinkOp "AK")
        (logHttpCaps [LOG_CAPABILITY, "wasmcloud:keyvalue"] [] "/t" 80 ++
          (if FS_CAPABILITY ∈ [LOG_CAPABILITY, "wasmcloud:keyvalue"] then
            List.map (fsVolumeCap []) [⟨"data", "/d"⟩] else []))) :=
  ⟨by rfl,
    C2_capabilities_field_is_declared_list allOk
      ⟨"AK", [LOG_CAPABILITY, "wasmcloud:keyvalue"]⟩ [] [⟨"data", "/d"⟩]
      "/t" 80
      ⟨"AK", [⟨"data", "/d"⟩], [LOG_CAPABILITY, "wasmcloud:keyvalue"]⟩
      (by rfl)⟩

theorem countFs_append (t1 t2 : List HostOp) (b : String) :
    countFsProvisions (t1 ++ t2) b =
      countFsProvisions t1 b + countFsProvisions t2 b := by
  simp [countFsProvisions, List.filter_append]

theorem countFs_zero_of (t : List HostOp) (b : String)
    (ht : ∀ op ∈ t, op ≠ HostOp.start_native_capability FS_CAPABILITY
      (some b) FS_CAPABILITY_PUBKEY) :
    countFsProvisions t b = 0 := by
  rw [countFsProvisions]
  have : List.filter
      (fun op => decide (op = HostOp.start_native_capability FS_CAPABILITY
        (some b) FS_CAPABILITY_PUBKEY)) t = [] := by
    rw [List.filter_eq_nil_iff]
    intro op hop
    simp [ht op hop]
  rw [this]
  rfl

theorem countFs_map_provision (vols : List VolumeBinding) (b : String) :
    countFsProvisions (List.map fsProvisionOp vols) b =
      (List.filter (fun v => decide (v.name = b)) vols).length := by
  induction vols with
  | nil => rfl
  | cons v rest ih =>
    by_cases hb : v.name = b
    · simp only [countFsProvisions, List.map_cons, List.filter_cons] at ih ⊢
      simp [fsProvisionOp, hb] at ih ⊢
      exact ih
    · simp only [countFsProvisions, List.map_cons, List.filter_cons] at ih ⊢
      simp [fsProvisionOp, hb] at ih ⊢
      exact ih

/-- C3 (counterexample): two successful runs that both require blob
storage for the same volume name `data` register that volume's provider
twice — one `start_native_capability` per run — not once as the
idempotence claim requires. -/
theorem C3_counterexample :
    countFsProvisions
        ((wasmcloud_run allOk (some ⟨"AK1", [FS_CAPABILITY]⟩) []
            [⟨"data", "/d"⟩] "/t1" 80).2 ++
          (wasmcloud_run allOk (some ⟨"AK2", [FS_CAPABILITY]⟩) []
            [⟨"data", "/d"⟩] "/t2" 81).2) "data" = 2 ∧
    countFsProvisions
        ((wasmcloud_run allOk (some ⟨"AK1", [FS_CAPABILITY]⟩) []
            [⟨"data", "/d"⟩] "/t1" 80).2 ++
          (wasmcloud_run allOk (some ⟨"AK2", [FS_CAPABILITY]⟩) []
            [⟨"data", "/d"⟩] "/t2" 81).2) "data" ≠ 1 := by
  exact ⟨by decide, by decide⟩

/-- C3 (amended): there is no idempotence guard: *every* successful run of
an actor requiring blob storage issues one fresh
`start_native_capability` registration per occurrence of the volume name
in its volume list (zero when the actor does not declare blob storage);
repeated runs therefore re-register the same binding, the provider
identity being the fixed constant `FS_CAPABILITY_PUBKEY` each time. -/
theorem C3_fs_registration_per_run (hostOk : HostOp → Bool)
    (actor : LoadedActor) (env : EnvVars) (vols : List VolumeBinding)
    (lp : String) (port : Nat) (h : ActorHandle)
    (hok : (wasmcloud_run hostOk (some actor) env vols lp port).1 =
      Except.ok h) (b : String) :
    countFsProvisions (wasmcloud_run hostOk (some actor) env vols lp port).2
        b =
      (if FS_CAPABILITY ∈ actor.capabilities then
        (List.filter (fun v => decide (v.name = b)) vols).length
      else 0) := by
  rcases run_cases hostOk actor env vols lp port with
    ⟨e, hfs, hrun⟩ | ⟨fsCaps, hfs, hrest⟩
  · rw [hrun] at hok
    cases hok
  · rcases hrest with ⟨hstart, hrun⟩ | ⟨hstart, hlinks⟩
    · rw [hrun] at hok
      cases hok
    · rcases hlinks with ⟨e, hsl, hrun⟩ | ⟨hsl, hrun⟩
      · rw [hrun] at hok
        cases hok
      · obtain ⟨hfs1, _⟩ := fsPart_ok_shape hostOk env vols
          actor.capabilities fsCaps hfs
        rw [hrun]
        simp only [Prod.snd]
        rw [countFs_append, hfs1]
        have hrest0 : countFsProvisions
            (HostOp.start_actor actor.public_key ::
              (setLinks hostOk actor.public_key
                (logHttpCaps actor.capabilities env lp port ++ fsCaps)).1)
            b = 0 := by
          apply countFs_zero_of
          intro op hop
          rcases List.mem_cons.mp hop with hop | hop
          · rw [hop]
            intro hx
            cases hx
          · obtain ⟨c, _, hc⟩ := setLinks_ops_mem hostOk actor.public_key
              _ op hop
            rw [hc]
            intro hx
            cases hx
        rw [hrest0]
        by_cases hmem : FS_CAPABILITY ∈ actor.capabilities
        · rw [if_pos hmem, if_pos hmem, countFs_map_provision]
          omega
        · rw [if_neg hmem, if_neg hmem]
          rfl

/-- C3 (witness): the amended theorem on a run with volumes `data` and
`cache`: exactly one registration for binding `data`. -/
theorem C3_fs_registration_per_run_witness :
    (wasmcloud_run allOk (some ⟨"AK", [FS_CAPABILITY]⟩) []
        [⟨"data", "/d"⟩, ⟨"cache", "/c"⟩] "/t" 80).1 =
      Except.ok ⟨"AK", [⟨"data", "/d"⟩, ⟨"cache", "/c"⟩], [FS_CAPABILITY]⟩ ∧
    countFsProvisions
        (wasmcloud_run allOk (some ⟨"AK", [FS_CAPABILITY]⟩) []
          [⟨"data", "/d"⟩, ⟨"cache", "/c"⟩] "/t" 80).2 "data" =
      (if FS_CAPABILITY ∈ (LoadedActor.mk "AK" [FS_CAPABILITY]).capabilities
        then (List.filter (fun v => decide (v.name = "data"))
          [VolumeBinding.mk "data" "/d", VolumeBinding.mk "cache" "/c"]).length
        else 0) :=
  ⟨by rfl,
    C3_fs_registration_per_run allOk ⟨"AK", [FS_CAPABILITY]⟩ []
      [⟨"data", "/d"⟩, ⟨"cache", "/c"⟩] "/t" 80
      ⟨"AK", [⟨"data", "/d"⟩, ⟨"cache", "/c"⟩], [FS_CAPABILITY]⟩
      (by rfl) "data"⟩

theorem logHttpCaps_mem (acaps : List String) (env : EnvVars) (lp : String)
    (port : Nat) (c : Capability)
    (hc : c ∈ logHttpCaps acaps env lp port) :
    (c.name = LOG_CAPABILITY ∧ c.binding = none) ∨
    (c.name = HTTP_CAPABILITY ∧ c.binding = none) := by
  rw [logHttpCaps] at hc
  rcases List.mem_append.mp hc with hc | hc
  · by_cases hl : LOG_CAPABILITY ∈ acaps
    · rw [if_pos hl] at hc
      simp only [List.mem_singleton] at hc
      subst hc
      left
      exact ⟨rfl, rfl⟩
    · rw [if_neg hl] at hc
      simp at hc
  · by_cases hh : HTTP_CAPABILITY ∈ acaps
    · rw [if_pos hh] at hc
      simp only [List.mem_singleton] at hc
      subst hc
      right
      exact ⟨rfl, rfl⟩
    · rw [if_neg hh] at hc
      simp at hc

/-- C6: ordering of every `wasmcloud_run` execution.  The Host trace
splits as `pOps` (only blob-store provisioning calls, never a `set_link`,
never the actor start) optionally followed by `start_actor` and then the
`set_link` calls, which follow a prefix `caps1` of the full
precedence-ordered capability list (logging, then HTTP, then blob storage
one per volume); and each linked capability's provider was registered
earlier — HTTP and logging eagerly at provider startup
(`startupProvisionOps`), blob storage in `pOps` before the actor
start. -/
theorem C6_provision_start_link_order (hostOk : HostOp → Bool)
    (actor : LoadedActor) (env : EnvVars) (vols : List VolumeBinding)
    (lp : String) (port : Nat) :
    ∃ pOps caps1 caps2,
      (∀ op ∈ pOps, isSetLink op = false ∧
        op ≠ HostOp.start_actor actor.public_key) ∧
      logHttpCaps actor.capabilities env lp port ++
          (if FS_CAPABILITY ∈ actor.capabilities then
            List.map (fsVolumeCap env) vols else []) = caps1 ++ caps2 ∧
      ((wasmcloud_run hostOk (some actor) env vols lp port).2 = pOps ∨
        ((wasmcloud_run hostOk (some actor) env vols lp port).2 =
            pOps ++ HostOp.start_actor actor.public_key ::
              List.map (setLinkOp actor.public_key) caps1 ∧
          ∀ c ∈ caps1, ∃ q,
            HostOp.start_native_capability c.name c.binding q ∈
              startupProvisionOps ++ pOps)) := by
  have hpOps : ∀ op ∈ (fsPart hostOk env vols actor.capabilities).1,
      isSetLink op = false ∧ op ≠ HostOp.start_actor actor.public_key := by
    intro op hop
    obtain ⟨v, _, hv⟩ := fsPart_ops_mem hostOk env vols actor.capabilities
      op hop
    rw [hv]
    exact ⟨rfl, by simp [fsProvisionOp]⟩
  rcases run_cases hostOk actor env vols lp port with
    ⟨e, hfs, hrun⟩ | ⟨fsCaps, hfs, hrest⟩
  · exact ⟨(fsPart hostOk env vols actor.capabilities).1, [],
      logHttpCaps actor.capabilities env lp port ++
        (if FS_CAPABILITY ∈ actor.capabilities then
          List.map (fsVolumeCap env) vols else []),
      hpOps, by simp, Or.inl (by rw [hrun])⟩
  · rcases hrest with ⟨hstart, hrun⟩ | ⟨hstart, hlinks⟩
    · refine ⟨(fsPart hostOk env vols actor.capabilities).1, [],
        logHttpCaps actor.capabilities env lp port ++
          (if FS_CAPABILITY ∈ actor.capabilities then
            List.map (fsVolumeCap env) vols else []),
        hpOps, by simp, Or.inr ⟨?_, ?_⟩⟩
      · rw [hrun]
        simp
      · intro c hc
        simp at hc
    · obtain ⟨hfs1, hfs2⟩ := fsPart_ok_shape hostOk env vols
        actor.capabilities fsCaps hfs
      obtain ⟨caps1, caps2, hsplit, hops⟩ := setLinks_split hostOk
        actor.public_key (logHttpCaps actor.capabilities env lp port ++ fsCaps)
      refine ⟨(fsPart hostOk env vols actor.capabilities).1, caps1, caps2,
        hpOps, ?_, Or.inr ⟨?_, ?_⟩⟩
      · rw [← hfs2]
        exact hsplit
      · rcases hlinks with ⟨e, hsl, hrun⟩ | ⟨hsl, hrun⟩
        · rw [hrun, hops]
        · rw [hrun, hops]
      · intro c hc
        have hcfull : c ∈ logHttpCaps actor.capabilities env lp port ++
            fsCaps := by
          rw [hsplit]
          exact List.mem_append_left _ hc
        rcases List.mem_append.mp hcfull with hcl | hcf
        · rcases logHttpCaps_mem _ _ _ _ c hcl with ⟨hn, hb⟩ | ⟨hn, hb⟩
          · exact ⟨LOG_CAPABILITY_PUBKEY,
              by rw [hn, hb]; simp [startupProvisionOps]⟩
          · exact ⟨HTTP_CAPABILITY_PUBKEY,
              by rw [hn, hb]; simp [startupProvisionOps]⟩
        · rw [hfs2] at hcf
          by_cases hmem : FS_CAPABILITY ∈ actor.capabilities
          · rw [if_pos hmem] at hcf
            obtain ⟨v, hvmem, hveq⟩ := List.mem_map.mp hcf
            refine ⟨FS_CAPABILITY_PUBKEY, ?_⟩
            apply List.mem_append_right
            rw [hfs1, if_pos hmem]
            subst hveq
            exact List.mem_map.mpr ⟨v, hvmem,
              by simp [fsVolumeCap, fsProvisionOp]⟩
          · rw [if_neg hmem] at hcf
            simp at hcf

/-- C6 (witness): the ordering theorem instantiated on a concrete actor
declaring all three managed capabilities with one volume, against a
fully-successful Host. -/
theorem C6_provision_start_link_order_witness :
    ∃ pOps caps1 caps2,
      (∀ op ∈ pOps, isSetLink op = false ∧
        op ≠ HostOp.start_actor "AK") ∧
      logHttpCaps [LOG_CAPABILITY, HTTP_CAPABILITY, FS_CAPABILITY] []
          "/t" 8080 ++
          (if FS_CAPABILITY ∈ [LOG_CAPABILITY, HTTP_CAPABILITY, FS_CAPABILITY]
            then List.map (fsVolumeCap []) [⟨"data", "/d"⟩] else []) =
        caps1 ++ caps2 ∧
      ((wasmcloud_run allOk
          (some ⟨"AK", [LOG_CAPABILITY, HTTP_CAPABILITY, FS_CAPABILITY]⟩)
          [] [⟨"data", "/d"⟩] "/t" 8080).2 = pOps ∨
        ((wasmcloud_run allOk
            (some ⟨"AK", [LOG_CAPABILITY, HTTP_CAPABILITY, FS_CAPABILITY]⟩)
            [] [⟨"data", "/d"⟩] "/t" 8080).2 =
            pOps ++ HostOp.start_actor "AK" ::
              List.map (setLinkOp "AK") caps1 ∧
          ∀ c ∈ caps1, ∃ q,
            HostOp.start_native_capability c.name c.binding q ∈
              startupProvisionOps ++ pOps)) :=
  C6_provision_start_link_order allOk
    ⟨"AK", [LOG_CAPABILITY, HTTP_CAPABILITY, FS_CAPABILITY]⟩ []
    [⟨"data", "/d"⟩] "/t" 8080
